import Mathlib

/-!
Shallow embedding of the state machine of `src/state_machine.rs`
(repository `stm-embedded-test`), instantiated by `src/main.rs` with
`BITS = 3` output pins.

The machine holds a discrete state (`Paused`/`On`), a `u8` tick counter
`cnt`, and owns the output pins and the button input pin.  Hardware
interaction is modelled by an environment `Env` giving the result of the
one button read an invocation performs (`btn.is_low()`, which may fail)
and which output-pin writes fail.  Each entry point returns the machine
after the call, a trace of the primitive hardware effects it performed,
and its `Result`.
-/

set_option autoImplicit false

namespace StmEmbedded

/-- Timer period in milliseconds: `PERIOD` in `main.rs` (500 ms). -/
def PERIOD_MS : Nat := 500

/-- `COUNT_DURATION` in milliseconds: how long to wait before incrementing
the output counter (`state_machine.rs`, 500 ms). -/
def COUNT_DURATION_MS : Nat := 500

/-- `TICK_COUNT = (COUNT_DURATION.to_millis() / PERIOD.to_millis()) as u8`:
how many timer interrupts to wait before incrementing the output counter
(the spec's `ticks_per_increment`).  The `% 256` is the `as u8` cast. -/
def TICK_COUNT : Nat := (COUNT_DURATION_MS / PERIOD_MS) % 256

/-- The `State` enum of `state_machine.rs`.  `On` is the spec's `Running`. -/
inductive State where
  | Paused
  | On
deriving DecidableEq, Repr

/-- The `Display` impl for `State`: the string written for each state. -/
def State.displayStr : State → String
  | .Paused => "Paused"
  | .On => "On"

/-- The `StateMachine` struct.  `pins` holds the level last driven on each
output pin, index 0 first (the Rust field is an array of pin handles; the
levels are what the embedding observes).  `pending` models the EXTI
edge-pending bit of the button peripheral, which `handle_btn_interrupt`
clears; it is hardware state adjacent to the struct, not a Rust field. -/
structure StateMachine where
  state : State
  pins : List Bool
  cnt : Nat
  pending : Bool
deriving DecidableEq, Repr

/-- One invocation's view of the hardware: `btnRead` is the result of
`btn.is_low()` (`none` models a failed read; `some b` a read returning
`b`), and `pinFail i = true` models `pin.set_state` failing on pin `i`. -/
structure Env where
  btnRead : Option Bool
  pinFail : Nat → Bool

/-- The `StateMachineError` enum: `PinError` wraps a failed output-pin
write, `ButtonError` a failed button read. -/
inductive StateMachineError where
  | PinError
  | ButtonError
deriving DecidableEq, Repr

/-- A primitive hardware effect performed during one invocation. -/
inductive Event where
  | readBtn (b : Bool)
  | readBtnFail
  | setPin (i : Nat) (v : Bool)
  | clearPending
  | writeLine (s : String)
deriving DecidableEq, Repr

/-- `MAX_COUNT = (1 << BITS) - 1`. -/
def MAX_COUNT (BITS : Nat) : Nat := (1 <<< BITS) - 1

/-- `MAX_TICK = (MAX_COUNT + 1) * TICK_COUNT - 1`. -/
def MAX_TICK (BITS : Nat) : Nat := (MAX_COUNT BITS + 1) * TICK_COUNT - 1

/-- The loop body of `StateMachine::set_pins`, with `i` the index of the
first pin of `ps`: each pin `i` is driven to bit `i` of `n`
(`((n >> i) & 0x01) == 1`); the loop stops at the first failing write,
leaving that pin and the later ones at their old level.  Returns the new
pin levels, the trace of performed writes, and whether all writes
succeeded. -/
def set_pinsFrom (e : Env) (n : Nat) : Nat → List Bool → List Bool × List Event × Bool
  | _, [] => ([], [], true)
  | i, p :: ps =>
    if e.pinFail i then
      (p :: ps, [], false)
    else
      ((((n >>> i) &&& 1) == 1) :: (set_pinsFrom e n (i + 1) ps).1,
       Event.setPin i (((n >>> i) &&& 1) == 1) :: (set_pinsFrom e n (i + 1) ps).2.1,
       (set_pinsFrom e n (i + 1) ps).2.2)

/-- `StateMachine::set_pins`. -/
def set_pins (e : Env) (n : Nat) (m : StateMachine) : StateMachine × List Event × Bool :=
  ({ m with pins := (set_pinsFrom e n 0 m.pins).1 },
   (set_pinsFrom e n 0 m.pins).2.1,
   (set_pinsFrom e n 0 m.pins).2.2)

/-- `StateMachine::actions`: in either state, drive the pins from
`self.cnt / TICK_COUNT`. -/
def actions (e : Env) (m : StateMachine) : StateMachine × List Event × Bool :=
  match m.state with
  | .Paused | .On => set_pins e (m.cnt / TICK_COUNT) m

/-- Rust `format!("{:<w}", s)`: left-aligned, padded on the right with
spaces to width `w` (no truncation). -/
def padRight (s : String) (w : Nat) : String :=
  s ++ String.mk (List.replicate (w - s.length) ' ')

/-- Rust `Display` of `bool`. -/
def boolStr (b : Bool) : String := if b then "true" else "false"

/-- The diagnostic line `tick` writes through
`writeln!(usart, "btn: {:<5} | cnt: {:<2} | state: {:<8}", btn, cnt, state)`;
`writeln!` appends a bare line feed. -/
def diagLine (btn : Bool) (cnt : Nat) (st : State) : String :=
  "btn: " ++ padRight (boolStr btn) 5 ++
  " | cnt: " ++ padRight (toString cnt) 2 ++
  " | state: " ++ padRight st.displayStr 8 ++ "\n"

/-- The transition block of `StateMachine::tick` (the `match` that assigns
`self.state` and updates `self.cnt`), as a function of the sampled button
level and the current `(state, cnt)`.  The `% 256` is `u8` addition. -/
def tickTransition (BITS : Nat) (b : Bool) (st : State) (cnt : Nat) : State × Nat :=
  match st with
  | .Paused => if !b then (State.On, cnt) else (State.Paused, cnt)
  | .On =>
    if b then (State.Paused, cnt)
    else (State.On, if cnt = MAX_TICK BITS then 0 else (cnt + 1) % 256)

/-- The part of `StateMachine::tick` after the button read succeeded with
level `b`: apply the transition table, rewrite the output pins via
`actions`, and on success write one diagnostic line; a failed pin write
early-returns `PinError`. -/
def tickAfterRead (BITS : Nat) (e : Env) (b : Bool) (m : StateMachine) :
    StateMachine × List Event × Except StateMachineError Unit :=
  let m1 := { m with state := (tickTransition BITS b m.state m.cnt).1,
                     cnt := (tickTransition BITS b m.state m.cnt).2 }
  let r := actions e m1
  if r.2.2 then
    (r.1,
     Event.readBtn b :: r.2.1 ++ [Event.writeLine (diagLine b r.1.cnt r.1.state)],
     Except.ok ())
  else
    (r.1, Event.readBtn b :: r.2.1, Except.error StateMachineError.PinError)

/-- `StateMachine::tick`: sample the button (early-returning `ButtonError`
on a failed read), then `tickAfterRead`. -/
def tick (BITS : Nat) (e : Env) (m : StateMachine) :
    StateMachine × List Event × Except StateMachineError Unit :=
  match e.btnRead with
  | none => (m, [Event.readBtnFail], Except.error StateMachineError.ButtonError)
  | some b => tickAfterRead BITS e b m

/-- The state assignment of `StateMachine::handle_btn_interrupt`: pressed
forces `Paused`; released sends `Paused` to `On` and keeps `On`. -/
def edgeTransition (b : Bool) (st : State) : State :=
  if b then State.Paused
  else
    match st with
    | .Paused => State.On
    | .On => State.On

/-- The part of `StateMachine::handle_btn_interrupt` after the button read
succeeded with level `b`: apply the edge transition, rewrite the output
pins via `actions`, and on success clear the edge-pending bit as the last
step; a failed pin write early-returns `PinError` without reaching the
clear. -/
def handleAfterRead (e : Env) (b : Bool) (m : StateMachine) :
    StateMachine × List Event × Except StateMachineError Unit :=
  let m1 := { m with state := edgeTransition b m.state }
  let r := actions e m1
  if r.2.2 then
    ({ r.1 with pending := false },
     Event.readBtn b :: r.2.1 ++ [Event.clearPending],
     Except.ok ())
  else
    (r.1, Event.readBtn b :: r.2.1, Except.error StateMachineError.PinError)

/-- `StateMachine::handle_btn_interrupt` (the spec's `on_button_edge`):
sample the button (early-returning `ButtonError` on a failed read), then
`handleAfterRead`. -/
def handle_btn_interrupt (e : Env) (m : StateMachine) :
    StateMachine × List Event × Except StateMachineError Unit :=
  match e.btnRead with
  | none => (m, [Event.readBtnFail], Except.error StateMachineError.ButtonError)
  | some b => handleAfterRead e b m

/-- `StateMachine::new`: state `Paused`, counter 0.  `pins` is the level
the output pins hold at construction (`main.rs` drives all three low
first) and `p` the initial edge-pending bit; both belong to the hardware
and are not assigned by `new`. -/
def new (pins : List Bool) (p : Bool) : StateMachine :=
  { state := State.Paused, pins := pins, cnt := 0, pending := p }

/-- One external event arriving at the state machine: a timer tick or a
button edge, each with its own view of the hardware. -/
inductive Op where
  | timerTick (e : Env)
  | buttonEdge (e : Env)

/-- Run a sequence of timer ticks and button edges from a machine. -/
def run (BITS : Nat) : List Op → StateMachine → StateMachine
  | [], m => m
  | Op.timerTick e :: ops, m => run BITS ops (tick BITS e m).1
  | Op.buttonEdge e :: ops, m => run BITS ops (handle_btn_interrupt e m).1

/-- The pure display function of spec §3: output line `i` carries bit `i`
of `counter / ticks_per_increment`, for a bank of `len` lines. -/
def display (cnt len : Nat) : List Bool :=
  (List.range len).map (fun i => ((cnt / TICK_COUNT) >>> i) &&& 1 == 1)

/-- Rust `format!("{:>w}", s)`: right-aligned, padded on the left with
spaces to width `w`. -/
def padLeft (s : String) (w : Nat) : String :=
  String.mk (List.replicate (w - s.length) ' ') ++ s

/-- The diagnostic line as the spec's §6 words it, read literally: each
field left-padded (padding inserted on the left) to widths 5, 2 and 8,
and the line terminated by CRLF.  Stated from the spec's words for
comparison with `diagLine`, which is taken from the source. -/
def diagLineSpec (btn : Bool) (cnt : Nat) (st : State) : String :=
  "btn: " ++ padLeft (boolStr btn) 5 ++
  " | cnt: " ++ padLeft (toString cnt) 2 ++
  " | state: " ++ padLeft st.displayStr 8 ++ "\r\n"

/-- Recognizes diagnostic-line events in a trace. -/
def isWriteLine : Event → Bool
  | Event.writeLine _ => true
  | _ => false

/-- Button read that fails. -/
def envNoBtn : Env := { btnRead := none, pinFail := fun _ => false }

/-- Button read returning `false` (released), all pin writes succeed. -/
def envOk : Env := { btnRead := some false, pinFail := fun _ => false }

/-- Button read returning `true` (pressed), all pin writes succeed. -/
def envOkPressed : Env := { btnRead := some true, pinFail := fun _ => false }

/-- Button read succeeds, every pin write fails. -/
def envPinBad : Env := { btnRead := some false, pinFail := fun _ => true }

/-- The machine as `main.rs` constructs it: three pins, driven low. -/
def m0 : StateMachine := new [false, false, false] false

/-! ### Helper lemmas -/

theorem tick_none (BITS : Nat) (e : Env) (m : StateMachine) (hb : e.btnRead = none) :
    tick BITS e m = (m, [Event.readBtnFail], Except.error StateMachineError.ButtonError) := by
  unfold tick
  rw [hb]

theorem tick_some (BITS : Nat) (e : Env) (b : Bool) (m : StateMachine)
    (hb : e.btnRead = some b) :
    tick BITS e m = tickAfterRead BITS e b m := by
  unfold tick
  rw [hb]

theorem handle_none (e : Env) (m : StateMachine) (hb : e.btnRead = none) :
    handle_btn_interrupt e m =
      (m, [Event.readBtnFail], Except.error StateMachineError.ButtonError) := by
  unfold handle_btn_interrupt
  rw [hb]

theorem handle_some (e : Env) (b : Bool) (m : StateMachine) (hb : e.btnRead = some b) :
    handle_btn_interrupt e m = handleAfterRead e b m := by
  unfold handle_btn_interrupt
  rw [hb]

theorem actions_eq (e : Env) (m : StateMachine) :
    actions e m =
      ({ m with pins := (set_pinsFrom e (m.cnt / TICK_COUNT) 0 m.pins).1 },
       (set_pinsFrom e (m.cnt / TICK_COUNT) 0 m.pins).2.1,
       (set_pinsFrom e (m.cnt / TICK_COUNT) 0 m.pins).2.2) := by
  obtain ⟨s, ps, c, pd⟩ := m
  cases s <;> rfl

theorem set_pinsFrom_ok_iff (e : Env) (n : Nat) (ps : List Bool) (i : Nat) :
    (set_pinsFrom e n i ps).2.2 = true ↔
      ∀ j, i ≤ j → j < i + ps.length → e.pinFail j = false := by
  induction ps generalizing i with
  | nil =>
    constructor
    · intro _ j h1 h2
      simp only [List.length_nil, Nat.add_zero] at h2
      exact absurd h1 (by omega)
    · intro _
      rfl
  | cons p ps ih =>
    cases hf : e.pinFail i with
    | true =>
      simp only [set_pinsFrom, hf, if_true]
      constructor
      · intro hfalse
        cases hfalse
      · intro hall
        have hc := hall i (Nat.le_refl i) (by simp only [List.length_cons]; omega)
        exact absurd hc (by simp [hf])
    | false =>
      simp only [set_pinsFrom, hf, Bool.false_eq_true, if_false]
      rw [ih (i + 1)]
      constructor
      · intro hall j h1 h2
        rcases Nat.eq_or_lt_of_le h1 with h | hlt
        · exact h ▸ hf
        · exact hall j hlt (by simp only [List.length_cons] at h2; omega)
      · intro hall j h1 h2
        exact hall j (by omega) (by simp only [List.length_cons]; omega)

theorem set_pinsFrom_fst_of_ok (e : Env) (n : Nat) (ps : List Bool) (i : Nat)
    (h : (set_pinsFrom e n i ps).2.2 = true) :
    (set_pinsFrom e n i ps).1 =
      (List.range ps.length).map (fun j => ((n >>> (i + j)) &&& 1) == 1) := by
  induction ps generalizing i with
  | nil => rfl
  | cons p ps ih =>
    cases hf : e.pinFail i with
    | true =>
      rw [set_pinsFrom, if_pos hf] at h
      cases h
    | false =>
      rw [set_pinsFrom, if_neg (by simp [hf])] at h ⊢
      simp only [List.length_cons, List.range_succ_eq_map, List.map_cons, List.map_map]
      refine congrArg₂ List.cons (by rw [Nat.add_zero]) ?_
      rw [ih (i + 1) h]
      refine List.map_congr_left (fun j _ => ?_)
      simp only [Function.comp]
      have hidx : (i + 0).succ + j = i + j.succ := by omega
      rw [hidx]

theorem set_pinsFrom_events (e : Env) (n : Nat) (ps : List Bool) (i : Nat) :
    ∀ ev ∈ (set_pinsFrom e n i ps).2.1, isWriteLine ev = false ∧ ev ≠ Event.clearPending := by
  induction ps generalizing i with
  | nil =>
    intro ev hev
    cases hev
  | cons p ps ih =>
    intro ev hev
    cases hf : e.pinFail i with
    | true =>
      rw [set_pinsFrom, if_pos hf] at hev
      cases hev
    | false =>
      rw [set_pinsFrom, if_neg (by simp [hf])] at hev
      rcases List.mem_cons.mp hev with h | h
      · subst h
        exact ⟨rfl, by simp⟩
      · exact ih (i + 1) ev h

theorem tickAfterRead_fst (BITS : Nat) (e : Env) (b : Bool) (m : StateMachine) :
    (tickAfterRead BITS e b m).1.state = (tickTransition BITS b m.state m.cnt).1 ∧
    (tickAfterRead BITS e b m).1.cnt = (tickTransition BITS b m.state m.cnt).2 ∧
    (tickAfterRead BITS e b m).1.pending = m.pending := by
  simp only [tickAfterRead]
  split <;> simp [actions_eq]

theorem handleAfterRead_fst (e : Env) (b : Bool) (m : StateMachine) :
    (handleAfterRead e b m).1.state = edgeTransition b m.state ∧
    (handleAfterRead e b m).1.cnt = m.cnt := by
  simp only [handleAfterRead]
  split <;> simp [actions_eq]

theorem handle_fst_state (e : Env) (b : Bool) (m : StateMachine) (hb : e.btnRead = some b) :
    (handle_btn_interrupt e m).1.state = edgeTransition b m.state := by
  rw [handle_some e b m hb]
  exact (handleAfterRead_fst e b m).1

theorem handle_fst_cnt (e : Env) (m : StateMachine) :
    (handle_btn_interrupt e m).1.cnt = m.cnt := by
  cases hb : e.btnRead with
  | none => rw [handle_none e m hb]
  | some b =>
    rw [handle_some e b m hb]
    exact (handleAfterRead_fst e b m).2

theorem edgeTransition_idem (b : Bool) (s : State) :
    edgeTransition b (edgeTransition b s) = edgeTransition b s := by
  cases b <;> cases s <;> rfl

theorem MAX_TICK_eq (BITS : Nat) : MAX_TICK BITS = 2 ^ BITS * TICK_COUNT - 1 := by
  unfold MAX_TICK MAX_COUNT
  rw [Nat.shiftLeft_eq, one_mul, Nat.sub_add_cancel Nat.one_le_two_pow]

theorem tick_fst_cnt_le (BITS : Nat) (e : Env) (m : StateMachine)
    (h : m.cnt ≤ MAX_TICK BITS) : (tick BITS e m).1.cnt ≤ MAX_TICK BITS := by
  cases hb : e.btnRead with
  | none =>
    rw [tick_none BITS e m hb]
    exact h
  | some b =>
    rw [tick_some BITS e b m hb, (tickAfterRead_fst BITS e b m).2.1]
    cases hs : m.state <;> cases b
    · exact h
    · exact h
    · show (if m.cnt = MAX_TICK BITS then 0 else (m.cnt + 1) % 256) ≤ MAX_TICK BITS
      split
      · exact Nat.zero_le _
      · exact le_trans (Nat.mod_le _ _) (by omega)
    · exact h

theorem run_cnt_le (BITS : Nat) (ops : List Op) (m : StateMachine)
    (h : m.cnt ≤ MAX_TICK BITS) : (run BITS ops m).cnt ≤ MAX_TICK BITS := by
  induction ops generalizing m with
  | nil => exact h
  | cons op ops ih =>
    cases op with
    | timerTick e => exact ih _ (tick_fst_cnt_le BITS e m h)
    | buttonEdge e =>
      refine ih _ ?_
      rw [handle_fst_cnt]
      exact h

theorem tickAfterRead_snd (BITS : Nat) (e : Env) (b : Bool) (m : StateMachine) :
    ((set_pinsFrom e ((tickTransition BITS b m.state m.cnt).2 / TICK_COUNT) 0 m.pins).2.2 = true →
      (tickAfterRead BITS e b m).2.2 = Except.ok ()) ∧
    ((set_pinsFrom e ((tickTransition BITS b m.state m.cnt).2 / TICK_COUNT) 0 m.pins).2.2 = false →
      (tickAfterRead BITS e b m).2.2 = Except.error StateMachineError.PinError) := by
  constructor <;> intro h <;> simp [tickAfterRead, actions_eq, h]

theorem handleAfterRead_snd (e : Env) (b : Bool) (m : StateMachine) :
    ((set_pinsFrom e (m.cnt / TICK_COUNT) 0 m.pins).2.2 = true →
      (handleAfterRead e b m).2.2 = Except.ok ()) ∧
    ((set_pinsFrom e (m.cnt / TICK_COUNT) 0 m.pins).2.2 = false →
      (handleAfterRead e b m).2.2 = Except.error StateMachineError.PinError) := by
  constructor <;> intro h <;> simp [handleAfterRead, actions_eq, h]

theorem tickAfterRead_pins_eq (BITS : Nat) (e : Env) (b : Bool) (m : StateMachine) :
    (tickAfterRead BITS e b m).1.pins =
      (set_pinsFrom e ((tickTransition BITS b m.state m.cnt).2 / TICK_COUNT) 0 m.pins).1 := by
  simp only [tickAfterRead, actions_eq]
  split <;> rfl

theorem handleAfterRead_pins_eq (e : Env) (b : Bool) (m : StateMachine) :
    (handleAfterRead e b m).1.pins =
      (set_pinsFrom e (m.cnt / TICK_COUNT) 0 m.pins).1 := by
  simp only [handleAfterRead, actions_eq]
  split <;> rfl

theorem set_pinsFrom_zero_of_ok (e : Env) (n : Nat) (ps : List Bool)
    (h : (set_pinsFrom e n 0 ps).2.2 = true) :
    (set_pinsFrom e n 0 ps).1 =
      (List.range ps.length).map (fun j => ((n >>> j) &&& 1) == 1) := by
  rw [set_pinsFrom_fst_of_ok e n ps 0 h]
  exact List.map_congr_left (fun j _ => by rw [Nat.zero_add])

theorem handleAfterRead_ok_parts (e : Env) (b : Bool) (m : StateMachine)
    (h : (set_pinsFrom e (m.cnt / TICK_COUNT) 0 m.pins).2.2 = true) :
    (handleAfterRead e b m).2.1 =
      Event.readBtn b :: (set_pinsFrom e (m.cnt / TICK_COUNT) 0 m.pins).2.1 ++
        [Event.clearPending] ∧
    (handleAfterRead e b m).1.pending = false := by
  constructor <;> simp [handleAfterRead, actions_eq, h]

theorem handleAfterRead_err_parts (e : Env) (b : Bool) (m : StateMachine)
    (h : (set_pinsFrom e (m.cnt / TICK_COUNT) 0 m.pins).2.2 = false) :
    (handleAfterRead e b m).2.1 =
      Event.readBtn b :: (set_pinsFrom e (m.cnt / TICK_COUNT) 0 m.pins).2.1 ∧
    (handleAfterRead e b m).1.pending = m.pending := by
  constructor <;> simp [handleAfterRead, actions_eq, h]

theorem tickAfterRead_ok_trace (BITS : Nat) (e : Env) (b : Bool) (m : StateMachine)
    (h : (set_pinsFrom e ((tickTransition BITS b m.state m.cnt).2 / TICK_COUNT) 0
      m.pins).2.2 = true) :
    (tickAfterRead BITS e b m).2.1 =
      Event.readBtn b ::
        (set_pinsFrom e ((tickTransition BITS b m.state m.cnt).2 / TICK_COUNT) 0 m.pins).2.1 ++
        [Event.writeLine (diagLine b (tickTransition BITS b m.state m.cnt).2
          (tickTransition BITS b m.state m.cnt).1)] := by
  simp [tickAfterRead, actions_eq, h]

/-! ### Claim theorems -/

/-- **C1**.  One `tick` whose button read returns level `b` updates
`(state, counter)` exactly as the two-state transition table of §4.2
prescribes: `Paused`/pressed stays `Paused` with the counter unchanged;
`Paused`/released goes to `On` (the spec's Running) with the counter
unchanged; `On`/pressed goes to `Paused` with the counter unchanged;
`On`/released stays `On` and increments the counter, wrapping from
`MAX_TICK` to 0.  The bounds hypotheses hold for every counter value
reachable in the program (`BITS = 3`, so `MAX_TICK = 7`). -/
theorem tick_transition_table (BITS : Nat) (e : Env) (b : Bool) (m : StateMachine)
    (hb : e.btnRead = some b) (hmax : MAX_TICK BITS < 256) (hcnt : m.cnt ≤ MAX_TICK BITS) :
    (m.state = State.Paused → b = true →
      (tick BITS e m).1.state = State.Paused ∧ (tick BITS e m).1.cnt = m.cnt) ∧
    (m.state = State.Paused → b = false →
      (tick BITS e m).1.state = State.On ∧ (tick BITS e m).1.cnt = m.cnt) ∧
    (m.state = State.On → b = true →
      (tick BITS e m).1.state = State.Paused ∧ (tick BITS e m).1.cnt = m.cnt) ∧
    (m.state = State.On → b = false →
      (tick BITS e m).1.state = State.On ∧
      (tick BITS e m).1.cnt = if m.cnt = MAX_TICK BITS then 0 else m.cnt + 1) := by
  rw [tick_some BITS e b m hb]
  obtain ⟨h1, h2, _⟩ := tickAfterRead_fst BITS e b m
  refine ⟨fun hs hbv => ?_, fun hs hbv => ?_, fun hs hbv => ?_, fun hs hbv => ?_⟩ <;>
    subst hbv <;> rw [h1, h2, hs]
  · exact ⟨rfl, rfl⟩
  · exact ⟨rfl, rfl⟩
  · exact ⟨rfl, rfl⟩
  · refine ⟨rfl, ?_⟩
    show (if m.cnt = MAX_TICK BITS then 0 else (m.cnt + 1) % 256) = _
    split
    · rfl
    · exact Nat.mod_eq_of_lt (by omega)

/-- Witness for **C1** at `BITS = 3`, a released button, state `On`,
counter at `MAX_TICK = 7`: the tick stays `On` and wraps the counter
to 0. -/
theorem tick_transition_table_witness :
    (tick 3 envOk { state := State.On, pins := [false, false, false], cnt := 7, pending := false }).1.state = State.On ∧
    (tick 3 envOk { state := State.On, pins := [false, false, false], cnt := 7, pending := false }).1.cnt =
      if (7 : Nat) = MAX_TICK 3 then 0 else 7 + 1 := by
  have h := (tick_transition_table 3 envOk false
    { state := State.On, pins := [false, false, false], cnt := 7, pending := false }
    rfl (by decide) (by decide)).2.2.2 rfl rfl
  exact ⟨h.1, h.2⟩

/-- **C4**.  One `handle_btn_interrupt` (the spec's `on_button_edge`) whose
button read returns level `b`: pressed sets the state to `Paused` from
every prior state; released sends `Paused` to `On` (Running) and leaves
`On` unchanged (a release while active is a no-op); in every case the
counter is left unchanged (no reset-on-resume). -/
theorem button_edge_transition (e : Env) (b : Bool) (m : StateMachine)
    (hb : e.btnRead = some b) :
    (b = true → (handle_btn_interrupt e m).1.state = State.Paused) ∧
    (b = false → m.state = State.Paused → (handle_btn_interrupt e m).1.state = State.On) ∧
    (b = false → m.state = State.On → (handle_btn_interrupt e m).1.state = State.On) ∧
    (handle_btn_interrupt e m).1.cnt = m.cnt := by
  refine ⟨fun hbv => ?_, fun hbv hs => ?_, fun hbv hs => ?_, handle_fst_cnt e m⟩ <;>
    subst hbv <;> rw [handle_fst_state e _ m hb]
  · cases m.state <;> rfl
  · rw [hs]; rfl
  · rw [hs]; rfl

/-- Witness for **C4**: a pressed-button edge on the freshly constructed
machine pauses it and keeps the counter. -/
theorem button_edge_transition_witness :
    (handle_btn_interrupt envOkPressed m0).1.state = State.Paused ∧
    (handle_btn_interrupt envOkPressed m0).1.cnt = m0.cnt := by
  have h := button_edge_transition envOkPressed true m0 rfl
  exact ⟨h.1 rfl, h.2.2.2⟩

/-- **C7**.  Two `handle_btn_interrupt` calls that both read the same
button level produce the same `(state, counter)` as one call, from every
starting machine: the edge transition is a function of the level, not of
the edge count. -/
theorem button_edge_idempotent (ea eb : Env) (b : Bool) (m : StateMachine)
    (ha : ea.btnRead = some b) (hb : eb.btnRead = some b) :
    (handle_btn_interrupt eb (handle_btn_interrupt ea m).1).1.state =
      (handle_btn_interrupt ea m).1.state ∧
    (handle_btn_interrupt eb (handle_btn_interrupt ea m).1).1.cnt =
      (handle_btn_interrupt ea m).1.cnt := by
  constructor
  · rw [handle_fst_state eb b _ hb, handle_fst_state ea b m ha, edgeTransition_idem]
  · exact handle_fst_cnt eb _

/-- Witness for **C7**: a spurious double released-level edge on the fresh
machine equals a single one on `(state, counter)`. -/
theorem button_edge_idempotent_witness :
    (handle_btn_interrupt envOk (handle_btn_interrupt envOk m0).1).1.state =
      (handle_btn_interrupt envOk m0).1.state ∧
    (handle_btn_interrupt envOk (handle_btn_interrupt envOk m0).1).1.cnt =
      (handle_btn_interrupt envOk m0).1.cnt :=
  button_edge_idempotent envOk envOk false m0 rfl rfl

/-- **C9**.  When the button read fails, both entry points return
`ButtonError` and leave the whole machine — state, counter, output pin
levels and the edge-pending bit — exactly as before the call. -/
theorem button_read_error_atomic (BITS : Nat) (e : Env) (m : StateMachine)
    (hb : e.btnRead = none) :
    (tick BITS e m).1 = m ∧
    (tick BITS e m).2.2 = Except.error StateMachineError.ButtonError ∧
    (handle_btn_interrupt e m).1 = m ∧
    (handle_btn_interrupt e m).2.2 = Except.error StateMachineError.ButtonError := by
  rw [tick_none BITS e m hb, handle_none e m hb]
  exact ⟨rfl, rfl, rfl, rfl⟩

/-- Witness for **C9**: a failing button read on the fresh machine changes
nothing and reports `ButtonError`. -/
theorem button_read_error_atomic_witness :
    (tick 3 envNoBtn m0).1 = m0 ∧
    (handle_btn_interrupt envNoBtn m0).1 = m0 := by
  have h := button_read_error_atomic 3 envNoBtn m0 rfl
  exact ⟨h.1, h.2.2.1⟩

/-- **C2**.  `MAX_TICK` is `(2^BITS) * TICK_COUNT - 1`; starting from a
newly constructed machine, after every sequence of `tick` and
`handle_btn_interrupt` calls the (unsigned) counter is at most `MAX_TICK`;
and a tick taken at `MAX_TICK` while `On` with the button released wraps
the counter to 0 (never saturates). -/
theorem cnt_bounded (BITS : Nat) (pins : List Bool) (p : Bool) (ops : List Op) :
    MAX_TICK BITS = 2 ^ BITS * TICK_COUNT - 1 ∧
    (run BITS ops (new pins p)).cnt ≤ MAX_TICK BITS ∧
    (∀ e m, e.btnRead = some false → m.state = State.On → m.cnt = MAX_TICK BITS →
      (tick BITS e m).1.cnt = 0) := by
  refine ⟨MAX_TICK_eq BITS, run_cnt_le BITS ops (new pins p) (Nat.zero_le _), ?_⟩
  intro e m hb hs hc
  rw [tick_some BITS e false m hb, (tickAfterRead_fst BITS e false m).2.1, hs]
  show (if m.cnt = MAX_TICK BITS then 0 else (m.cnt + 1) % 256) = 0
  rw [if_pos hc]

/-- Witness for **C2** at `BITS = 3`: a release edge followed by a tick
keeps the counter within `[0, MAX_TICK]`, and a tick at `MAX_TICK = 7`
while `On` wraps to 0. -/
theorem cnt_bounded_witness :
    (run 3 [Op.buttonEdge envOk, Op.timerTick envOk] (new [false, false, false] false)).cnt ≤
      MAX_TICK 3 ∧
    (tick 3 envOk
      { state := State.On, pins := [false, false, false], cnt := MAX_TICK 3,
        pending := false }).1.cnt = 0 := by
  have h := cnt_bounded 3 [false, false, false] false [Op.buttonEdge envOk, Op.timerTick envOk]
  exact ⟨h.2.1, h.2.2 envOk _ rfl rfl rfl⟩

/-- **C5**.  Both entry points return success or the first error
encountered: `ButtonError` exactly when the button read fails (step 1,
regardless of the pins), otherwise `PinError` when some output-pin write
fails, otherwise success. -/
theorem first_error_result (BITS : Nat) (e : Env) (m : StateMachine) :
    (e.btnRead = none →
      (tick BITS e m).2.2 = Except.error StateMachineError.ButtonError ∧
      (handle_btn_interrupt e m).2.2 = Except.error StateMachineError.ButtonError) ∧
    (∀ b, e.btnRead = some b →
      ((∃ j, j < m.pins.length ∧ e.pinFail j = true) →
        (tick BITS e m).2.2 = Except.error StateMachineError.PinError ∧
        (handle_btn_interrupt e m).2.2 = Except.error StateMachineError.PinError) ∧
      ((∀ j, j < m.pins.length → e.pinFail j = false) →
        (tick BITS e m).2.2 = Except.ok () ∧
        (handle_btn_interrupt e m).2.2 = Except.ok ())) := by
  constructor
  · intro hb
    rw [tick_none BITS e m hb, handle_none e m hb]
    exact ⟨rfl, rfl⟩
  · intro b hb
    constructor
    · rintro ⟨j, hj, hfail⟩
      have hbad : ∀ n, (set_pinsFrom e n 0 m.pins).2.2 = false := by
        intro n
        cases hsp : (set_pinsFrom e n 0 m.pins).2.2 with
        | false => rfl
        | true =>
          have hall := (set_pinsFrom_ok_iff e n m.pins 0).mp hsp j (Nat.zero_le j) (by omega)
          exact Bool.noConfusion (hall.symm.trans hfail)
      rw [tick_some BITS e b m hb, handle_some e b m hb]
      exact ⟨(tickAfterRead_snd BITS e b m).2 (hbad _), (handleAfterRead_snd e b m).2 (hbad _)⟩
    · intro hall
      have hgood : ∀ n, (set_pinsFrom e n 0 m.pins).2.2 = true := fun n =>
        (set_pinsFrom_ok_iff e n m.pins 0).mpr (fun j _ h2 => hall j (by omega))
      rw [tick_some BITS e b m hb, handle_some e b m hb]
      exact ⟨(tickAfterRead_snd BITS e b m).1 (hgood _), (handleAfterRead_snd e b m).1 (hgood _)⟩

/-- Witness for **C5**: on the fresh three-pin machine, a failed button
read yields `ButtonError`, a failing pin write yields `PinError`, and a
clean environment yields success. -/
theorem first_error_result_witness :
    (tick 3 envNoBtn m0).2.2 = Except.error StateMachineError.ButtonError ∧
    (tick 3 envPinBad m0).2.2 = Except.error StateMachineError.PinError ∧
    (tick 3 envOk m0).2.2 = Except.ok () :=
  ⟨((first_error_result 3 envNoBtn m0).1 rfl).1,
   (((first_error_result 3 envPinBad m0).2 false rfl).1 ⟨0, by decide, rfl⟩).1,
   (((first_error_result 3 envOk m0).2 false rfl).2 (fun j _ => rfl)).1⟩

/-- **C3**.  After every successful `tick` or `handle_btn_interrupt`
call, the output-pin levels equal the pure display function of §3: line
`i` carries bit `i` of `counter / TICK_COUNT` (truncated division), where
`counter` is the machine's counter after the call. -/
theorem pins_eq_display (BITS : Nat) (e : Env) (m : StateMachine) :
    ((tick BITS e m).2.2 = Except.ok () →
      (tick BITS e m).1.pins = display (tick BITS e m).1.cnt m.pins.length) ∧
    ((handle_btn_interrupt e m).2.2 = Except.ok () →
      (handle_btn_interrupt e m).1.pins =
        display (handle_btn_interrupt e m).1.cnt m.pins.length) := by
  cases hb : e.btnRead with
  | none =>
    rw [tick_none BITS e m hb, handle_none e m hb]
    exact ⟨fun h => Except.noConfusion h, fun h => Except.noConfusion h⟩
  | some b =>
    rw [tick_some BITS e b m hb, handle_some e b m hb]
    constructor
    · intro hok
      cases hsp : (set_pinsFrom e ((tickTransition BITS b m.state m.cnt).2 / TICK_COUNT) 0
          m.pins).2.2 with
      | false =>
        rw [(tickAfterRead_snd BITS e b m).2 hsp] at hok
        exact Except.noConfusion hok
      | true =>
        rw [tickAfterRead_pins_eq, set_pinsFrom_zero_of_ok _ _ _ hsp,
          (tickAfterRead_fst BITS e b m).2.1]
        rfl
    · intro hok
      cases hsp : (set_pinsFrom e (m.cnt / TICK_COUNT) 0 m.pins).2.2 with
      | false =>
        rw [(handleAfterRead_snd e b m).2 hsp] at hok
        exact Except.noConfusion hok
      | true =>
        rw [handleAfterRead_pins_eq, set_pinsFrom_zero_of_ok _ _ _ hsp,
          (handleAfterRead_fst e b m).2]
        rfl

/-- Witness for **C3**: both calls succeed on the fresh machine and leave
the pins at the displayed pattern. -/
theorem pins_eq_display_witness :
    (tick 3 envOk m0).2.2 = Except.ok () ∧
    (tick 3 envOk m0).1.pins = display (tick 3 envOk m0).1.cnt m0.pins.length ∧
    (handle_btn_interrupt envOk m0).1.pins =
      display (handle_btn_interrupt envOk m0).1.cnt m0.pins.length :=
  ⟨rfl, (pins_eq_display 3 envOk m0).1 rfl, (pins_eq_display 3 envOk m0).2 rfl⟩

/-- **C10**.  The pin pattern written by `actions` — and its write trace
and success flag — depends only on the counter and the prior pin levels,
never on the state: `Paused` and `On` machines with equal counters drive
identical patterns, so pausing freezes the display without blanking or
altering it. -/
theorem actions_ignores_state (e : Env) (sa sb : State) (ps : List Bool) (c : Nat)
    (pa pb : Bool) :
    (actions e ⟨sa, ps, c, pa⟩).1.pins = (actions e ⟨sb, ps, c, pb⟩).1.pins ∧
    (actions e ⟨sa, ps, c, pa⟩).2.1 = (actions e ⟨sb, ps, c, pb⟩).2.1 ∧
    (actions e ⟨sa, ps, c, pa⟩).2.2 = (actions e ⟨sb, ps, c, pb⟩).2.2 := by
  cases sa <;> cases sb <;> exact ⟨rfl, rfl, rfl⟩

/-- **C6**.  In every `handle_btn_interrupt` invocation the edge-pending
bit is cleared exactly once, as the last hardware effect, after the button
read and the pin writes, and on the success path only; on the
error-returning paths it is never cleared (not even before the error), so
the pending bit is left as it was. -/
theorem clear_pending_once_last (e : Env) (m : StateMachine) :
    ((handle_btn_interrupt e m).2.2 = Except.ok () →
      (handle_btn_interrupt e m).2.1.count Event.clearPending = 1 ∧
      (handle_btn_interrupt e m).2.1.getLast? = some Event.clearPending ∧
      (handle_btn_interrupt e m).1.pending = false) ∧
    ((handle_btn_interrupt e m).2.2 ≠ Except.ok () →
      (handle_btn_interrupt e m).2.1.count Event.clearPending = 0 ∧
      (handle_btn_interrupt e m).1.pending = m.pending) := by
  cases hb : e.btnRead with
  | none =>
    rw [handle_none e m hb]
    exact ⟨fun h => Except.noConfusion h, fun _ => ⟨rfl, rfl⟩⟩
  | some b =>
    rw [handle_some e b m hb]
    have h0 : (set_pinsFrom e (m.cnt / TICK_COUNT) 0 m.pins).2.1.count Event.clearPending = 0 :=
      List.count_eq_zero.mpr
        (fun hmem => (set_pinsFrom_events e (m.cnt / TICK_COUNT) m.pins 0 _ hmem).2 rfl)
    cases hsp : (set_pinsFrom e (m.cnt / TICK_COUNT) 0 m.pins).2.2 with
    | true =>
      obtain ⟨htr, hpd⟩ := handleAfterRead_ok_parts e b m hsp
      refine ⟨fun _ => ⟨?_, ?_, hpd⟩,
        fun hne => absurd ((handleAfterRead_snd e b m).1 hsp) hne⟩
      · rw [htr]
        simp [List.count_cons, List.count_append, h0]
      · rw [htr]
        exact List.getLast?_concat _
    | false =>
      obtain ⟨htr, hpd⟩ := handleAfterRead_err_parts e b m hsp
      refine ⟨fun hok => ?_, fun _ => ⟨?_, hpd⟩⟩
      · rw [(handleAfterRead_snd e b m).2 hsp] at hok
        exact Except.noConfusion hok
      · rw [htr]
        simp [List.count_cons, h0]

/-- Witness for **C6**: a successful edge on the fresh machine clears the
pending bit exactly once and last; a failed-read edge leaves it alone. -/
theorem clear_pending_once_last_witness :
    ((handle_btn_interrupt envOk (new [false, false, false] true)).2.1.count
        Event.clearPending = 1 ∧
      (handle_btn_interrupt envOk (new [false, false, false] true)).2.1.getLast? =
        some Event.clearPending ∧
      (handle_btn_interrupt envOk (new [false, false, false] true)).1.pending = false) ∧
    ((handle_btn_interrupt envNoBtn (new [false, false, false] true)).2.1.count
        Event.clearPending = 0 ∧
      (handle_btn_interrupt envNoBtn (new [false, false, false] true)).1.pending =
        (new [false, false, false] true).pending) :=
  ⟨(clear_pending_once_last envOk (new [false, false, false] true)).1 rfl,
   (clear_pending_once_last envNoBtn (new [false, false, false] true)).2
     (fun h => Except.noConfusion h)⟩

/-- **C8** counterexample.  On a concrete successful tick the single
diagnostic line emitted is `diagLine` — left-aligned fields terminated by
a bare `\n` — which differs from the line the claim prescribes
(`diagLineSpec`: fields padded on the left, terminated by CRLF). -/
theorem diag_line_format_counterexample :
    (tick 3 envOk m0).2.1.filter isWriteLine =
      [Event.writeLine (diagLine false 0 State.On)] ∧
    diagLine false 0 State.On ≠ diagLineSpec false 0 State.On :=
  ⟨rfl, by decide⟩

/-- **C8** (amended).  Every `tick` invocation that returns success emits
exactly one diagnostic line, reporting the sampled button level and the
post-call counter and state, in the fixed-width format of
`"btn: {:<5} | cnt: {:<2} | state: {:<8}"` — each field left-aligned,
padded on the right — terminated by a line feed. -/
theorem tick_one_diag_line (BITS : Nat) (e : Env) (b : Bool) (m : StateMachine)
    (hb : e.btnRead = some b) (hok : (tick BITS e m).2.2 = Except.ok ()) :
    (tick BITS e m).2.1.filter isWriteLine =
      [Event.writeLine (diagLine b (tick BITS e m).1.cnt (tick BITS e m).1.state)] := by
  rw [tick_some BITS e b m hb] at hok ⊢
  cases hsp : (set_pinsFrom e ((tickTransition BITS b m.state m.cnt).2 / TICK_COUNT) 0
      m.pins).2.2 with
  | false =>
    rw [(tickAfterRead_snd BITS e b m).2 hsp] at hok
    exact Except.noConfusion hok
  | true =>
    have hflt : (set_pinsFrom e ((tickTransition BITS b m.state m.cnt).2 / TICK_COUNT) 0
        m.pins).2.1.filter isWriteLine = [] :=
      List.filter_eq_nil_iff.mpr (fun ev hmem => by
        simp [(set_pinsFrom_events e _ m.pins 0 ev hmem).1])
    rw [tickAfterRead_ok_trace BITS e b m hsp, (tickAfterRead_fst BITS e b m).1,
      (tickAfterRead_fst BITS e b m).2.1]
    simp [List.filter_cons, List.filter_append, hflt, isWriteLine]

/-- Witness for **C8** (amended): the fresh machine's first tick emits the
one line `"btn: false | cnt: 0  | state: On      \n"`. -/
theorem tick_one_diag_line_witness :
    (tick 3 envOk m0).2.1.filter isWriteLine =
      [Event.writeLine (diagLine false (tick 3 envOk m0).1.cnt (tick 3 envOk m0).1.state)] :=
  tick_one_diag_line 3 envOk false m0 rfl rfl

end StmEmbedded
